import Mathlib

/-!
Verification development for the `resizeimg` image reverse-proxy.

The definitions below are a shallow embedding of `src/http.rs`, `src/image.rs`
and `src/config.rs`:
* Rust `&str` / `String` values are modelled as Lean `String` (UTF-8 text),
  with byte-level facts (slice panics) expressed through per-character UTF-8
  sizes where the source indexes by bytes;
* fallible Rust code (`anyhow::Result`) is modelled with `Except Unit`;
* a Rust panic is modelled as a distinguished `Except` error where it matters
  (`extract_geometry`) and as `Fail.panic` in the request pipeline;
* the external `regex` crate is kept abstract: `get_upstream` and `process`
  are parameterised over a capture oracle `rx : String → String → Except Unit
  (Option (String × List (Option String)))` combining `Regex::new` (a compile
  failure makes every call fail) and `Regex::captures` (full match plus the
  capture groups 1..n in order, `none` for a group that did not participate);
  a small executable matcher `mini_regex` instantiates the oracle on the
  concrete patterns used by the spec's examples;
* the two imaging backends (`image` crate / libvips) are opaque capability
  providers, modelled by an `EngineOps` record exactly as the spec treats
  them (decode / resize / encode / get_geometry).
-/

/-! ### Rust string primitives -/

/-- Boolean prefix test on character lists (`needle` is a prefix of `hay`). -/
def pre_chk : List Char → List Char → Bool
  | [], _ => true
  | _ :: _, [] => false
  | a :: as_, b :: bs => a == b && pre_chk as_ bs

/-- One pass of Rust `str::split` on a non-empty separator: scan left to
right, cutting at each non-overlapping occurrence of `sep`.  `fuel` bounds
the recursion; it is always instantiated with the length of the input, which
suffices because every step consumes at least one character. -/
def split_go (sep : List Char) : Nat → List Char → List Char → List (List Char)
  | _, [], acc => [acc.reverse]
  | 0, cs, acc => [acc.reverse ++ cs]
  | fuel + 1, c :: rest, acc =>
    if pre_chk sep (c :: rest) then
      acc.reverse :: split_go sep fuel ((c :: rest).drop sep.length) []
    else
      split_go sep fuel rest (c :: acc)

/-- Rust `str::split(sep)` for a non-empty separator (`"a&b&".split('&')`
yields `["a", "b", ""]`, `"".split('&')` yields `[""]`). -/
def rsplit (sep s : String) : List String :=
  (split_go sep.data s.data.length s.data []).map String.mk

/-- Substring containment, Rust `str::contains` for a literal pattern. -/
def contains_sub : List Char → List Char → Bool
  | [], needle => pre_chk needle []
  | hay@(_ :: t), needle => pre_chk needle hay || contains_sub t needle

/-- Rust `str::contains` on `String`s. -/
def str_contains (hay needle : String) : Bool :=
  contains_sub hay.data needle.data

/-- The Unicode `White_Space` property, as used by Rust `char::is_whitespace`. -/
def rust_is_ws (c : Char) : Bool :=
  let n := c.toNat
  (9 ≤ n && n ≤ 13) || n == 32 || n == 133 || n == 160 || n == 0x1680 ||
    (0x2000 ≤ n && n ≤ 0x200A) || n == 0x2028 || n == 0x2029 || n == 0x202F ||
    n == 0x205F || n == 0x3000

/-- Rust `str::trim`: drop whitespace from both ends. -/
def rust_trim (cs : List Char) : List Char :=
  ((cs.dropWhile rust_is_ws).reverse.dropWhile rust_is_ws).reverse

/-- Numeric value of a list of ASCII digits, most significant first. -/
def digits_val (ds : List Char) : Nat :=
  ds.foldl (fun a c => a * 10 + (c.toNat - 48)) 0

/-- Rust `str::parse::<u32>()`: an optional leading `+`, then one or more
ASCII digits, value at most `u32::MAX`; anything else is a parse error. -/
def parse_u32_opt (cs : List Char) : Option Nat :=
  let ds := match cs with
    | '+' :: r => r
    | r => r
  if !ds.isEmpty && ds.all (fun c => c.isDigit) then
    if digits_val ds < 4294967296 then some (digits_val ds) else none
  else none

/-- `v.to_string().trim().parse::<u32>().unwrap_or_default()` from
`extract_geometry`: trim, parse, and collapse a parse failure to `0`. -/
def parse_u32 (cs : List Char) : Nat :=
  (parse_u32_opt (rust_trim cs)).getD 0

/-- UTF-8 byte width of a character (Rust `char::len_utf8`). -/
def char_utf8_len (c : Char) : Nat :=
  if c.toNat < 0x80 then 1
  else if c.toNat < 0x800 then 2
  else if c.toNat < 0x10000 then 3
  else 4

/-! ### Geometry extractor (`extract_geometry`, src/http.rs lines 119-148) -/

/-- The loop body test of `extract_geometry`: split a `&`-pair on the literal
`"Resize="`, take at most two pieces, and accept when the first piece is
exactly `"im="` and a second piece exists, yielding that second piece
(the Rust `(Some("im="), Some(v))` match). -/
def qualifies (pair : String) : Option String :=
  match rsplit "Resize=" pair with
  | a :: v :: _ => if a = "im=" then some v else none
  | _ => none

/-- The mutable-`size` loop of `extract_geometry`: the first qualifying pair
assigns `size` and breaks; if none qualifies, `size` stays `""`. -/
def find_size : List String → String
  | [] => ""
  | p :: rest =>
    match qualifies p with
    | some v => v
    | none => find_size rest

/-- Whether the Rust byte slice `size[1..size.len() - 1]` succeeds: it panics
unless the string has at least two characters and both its first and its
last character are a single UTF-8 byte (otherwise the range is invalid or an
endpoint is not a character boundary). -/
def slice_ok (cs : List Char) : Bool :=
  decide (2 ≤ cs.length) &&
    (match cs with
      | c :: _ => char_utf8_len c == 1
      | [] => false) &&
    (match cs.getLast? with
      | some c => char_utf8_len c == 1
      | none => false)

/-- `extract_geometry` from src/http.rs: find the first `im=Resize=…` pair,
strip the first and last byte of its value (`.error ()` models the Rust
panic when that byte slice is out of range or off a character boundary),
split on `,` into exactly two fields, parse both as `u32` with failures
collapsed to `0`, and reject non-positive dimensions. -/
def extract_geometry (uri_string : String) : Except Unit (Option (Nat × Nat)) :=
  let size := find_size (rsplit "&" uri_string)
  if size = "" then .ok none
  else
    let cs := size.data
    if slice_ok cs then
      let stripped := String.mk ((cs.drop 1).dropLast)
      match rsplit "," stripped with
      | [a, b] =>
        let width := parse_u32 a.data
        let height := parse_u32 b.data
        if width == 0 || height == 0 then .ok none
        else .ok (some (width, height))
      | _ => .ok none
    else .error ()

/-- The geometry condition as the spec words it (with the corrections the
code forces): the first pair of the query whose `"Resize="`-split starts
with exactly `"im="` and has a second piece wins; that second piece, after
dropping its first and last character (the delimiters are not verified),
must split on `,` into exactly two fields whose trimmed parses are both
strictly positive. -/
def geometry_spec (q : String) : Option (Nat × Nat) :=
  match (rsplit "&" q).findSome? qualifies with
  | some v =>
    let body := (v.data.drop 1).dropLast
    match rsplit "," (String.mk body) with
    | [a, b] =>
      let w := parse_u32 a.data
      let h := parse_u32 b.data
      if 0 < w ∧ 0 < h then some (w, h) else none
    | _ => none
  | none => none

/-- The geometry condition exactly as claim C4 words it: additionally
requires the winning value to literally be of the form `(W,H)`, i.e.
delimited by parentheses. -/
def geometry_claimed (q : String) : Option (Nat × Nat) :=
  match (rsplit "&" q).findSome? qualifies with
  | some v =>
    match v.data with
    | '(' :: rest =>
      match rest.getLast? with
      | some ')' =>
        match rsplit "," (String.mk rest.dropLast) with
        | [a, b] =>
          let w := parse_u32 a.data
          let h := parse_u32 b.data
          if 0 < w ∧ 0 < h then some (w, h) else none
        | _ => none
      | _ => none
    | _ => none
  | none => none

/-! ### Decidable equality for `Except` results -/

instance except_deq {ε α : Type} [DecidableEq ε] [DecidableEq α] :
    DecidableEq (Except ε α) := fun x y =>
  match x, y with
  | .error a, .error b =>
    if h : a = b then .isTrue (by rw [h]) else
      .isFalse (fun hc => h (by cases hc; rfl))
  | .ok a, .ok b =>
    if h : a = b then .isTrue (by rw [h]) else
      .isFalse (fun hc => h (by cases hc; rfl))
  | .error _, .ok _ => .isFalse (fun hc => by cases hc)
  | .ok _, .error _ => .isFalse (fun hc => by cases hc)

/-! ### A small executable model of the external regex engine

`get_upstream` delegates pattern compilation and matching to the `regex`
crate, which is outside this repository.  The theorems below are stated over
an arbitrary capture oracle; `mini_regex` is one concrete oracle covering
the fully anchored subset `^…$` with literal characters, `\d`, groups,
`+` and `?`, enough to run the spec's examples.  On a match it reports the
full match together with the capture groups in order, `none` for a group
that did not participate, mirroring `Regex::captures`; an unsupported or
malformed pattern is a compile error. -/

inductive MiniRE where
  | eps
  | lit (c : Char)
  | digit
  | seq (a b : MiniRE)
  | grp (n : Nat) (r : MiniRE)
  | opt (r : MiniRE)
  | plus (r : MiniRE)
deriving Repr

/-- Recursive-descent compiler for the supported pattern subset.  `fuel`
bounds the recursion (instantiated with the pattern length); `g` is the next
group number.  Returns the parsed expression, the next group number and the
unconsumed rest (which stops at `)` for the caller to consume). -/
def parse_atoms : Nat → List Char → Nat → Except Unit (MiniRE × Nat × List Char)
  | _, [], g => .ok (.eps, g, [])
  | _, cs@(')' :: _), g => .ok (.eps, g, cs)
  | 0, _ :: _, _ => .error ()
  | fuel + 1, c :: rest, g =>
    let atom : Except Unit (MiniRE × Nat × List Char) :=
      if c = '\\' then
        match rest with
        | 'd' :: r2 => .ok (.digit, g, r2)
        | _ => .error ()
      else if c = '(' then
        match parse_atoms fuel rest (g + 1) with
        | .ok (r, g2, ')' :: r2) => .ok (.grp g r, g2, r2)
        | _ => .error ()
      else if c = '+' ∨ c = '?' ∨ c = '^' ∨ c = '$' then .error ()
      else .ok (.lit c, g, rest)
    match atom with
    | .error e => .error e
    | .ok (a, g2, rest2) =>
      let p : MiniRE × List Char :=
        match rest2 with
        | '+' :: r3 => (.plus a, r3)
        | '?' :: r3 => (.opt a, r3)
        | _ => (a, rest2)
      match parse_atoms fuel p.2 g2 with
      | .ok (tl, g3, rem) => .ok (.seq p.1 tl, g3, rem)
      | .error e => .error e

/-- Backtracking matcher: all ways `re` can consume a prefix of `s`, each as
(remaining suffix, recorded group captures), in greedy priority order.
`fuel` bounds the recursion depth and is decremented on every recursive
call; `mini_regex` instantiates it generously enough for its inputs. -/
def outcomes : Nat → MiniRE → List Char → List (List Char × List (Nat × List Char))
  | _, .eps, s => [(s, [])]
  | _, .lit _, [] => []
  | _, .lit c, x :: xs => if x == c then [(xs, [])] else []
  | _, .digit, [] => []
  | _, .digit, x :: xs => if x.isDigit then [(xs, [])] else []
  | 0, .seq _ _, _ => []
  | f + 1, .seq a b, s =>
    ((outcomes f a s).map (fun o1 =>
      (outcomes f b o1.1).map (fun o2 => (o2.1, o1.2 ++ o2.2)))).flatten
  | 0, .grp _ _, _ => []
  | f + 1, .grp n r, s =>
    (outcomes f r s).map (fun o =>
      (o.1, (n, s.take (s.length - o.1.length)) :: o.2))
  | 0, .opt _, _ => []
  | f + 1, .opt r, s => outcomes f r s ++ [(s, [])]
  | 0, .plus _, _ => []
  | f + 1, .plus r, s =>
    ((outcomes f r s).map (fun o1 =>
      if o1.1.length < s.length then
        ((outcomes f (.plus r) o1.1).map
          (fun o2 => (o2.1, o1.2 ++ o2.2))) ++ [(o1.1, o1.2)]
      else [(o1.1, o1.2)])).flatten

/-- Capture group `i` from a recorded capture list, as `Regex::captures`
reports it: `none` when the group did not participate in the match. -/
def lookup_group (caps : List (Nat × List Char)) (i : Nat) : Option String :=
  (caps.find? (fun p => p.1 == i)).map (fun p => String.mk p.2)

/-- The concrete capture oracle: compile `pat` (anchored `^…$` subset only,
anything else is a compile error) and run it against `s`.  On a match,
returns the full match and the groups 1..n in order. -/
def mini_regex (pat s : String) : Except Unit (Option (String × List (Option String))) :=
  match pat.data with
  | '^' :: rest =>
    match rest.getLast? with
    | some '$' =>
      let body := rest.dropLast
      match parse_atoms (body.length + 1) body 0 with
      | .ok (r, gcount, []) =>
        match (outcomes ((body.length + 2) * (s.data.length + 2)) r s.data).find?
            (fun o => o.1.isEmpty) with
        | some o => .ok (some (s, (List.range gcount).map (lookup_group o.2)))
        | none => .ok none
      | _ => .error ()
    | _ => .error ()
  | _ => .error ()

/-! ### Upstream resolver (`get_upstream`, src/http.rs lines 150-172) -/

/-- An entry of the configured rule table (src/config.rs). -/
structure Upstreams where
  path : String
  upstream : String
deriving DecidableEq

/-- The URL construction of `get_upstream` lines 161-168: split the template
on the literal `{}`, zip the fragments with the participating captures
(truncating at the shorter list), flatten each pair to fragment-then-capture
and join. -/
def build_url (template : String) (results : List String) : String :=
  let upstream_vec := rsplit "{}" template
  let zipped := upstream_vec.zip results
  let url := (zipped.map (fun p => [p.1, p.2])).flatten
  String.join url

/-- `get_upstream` from src/http.rs, parameterised over the capture oracle
`rx`.  Try the rules in order; a compile failure aborts the whole resolution
with an error; on the first match build the URL from the participating
captures (the Rust code flattens `captures.iter()`, which drops the `None`
groups, and then removes index 0, the full match, which always
participates). -/
def get_upstream (rx : String → String → Except Unit (Option (String × List (Option String))))
    (uri : String) : List Upstreams → Except Unit (Option String)
  | [] => .ok none
  | entry :: rest =>
    match rx entry.path uri with
    | .error e => .error e
    | .ok none => get_upstream rx uri rest
    | .ok (some (_full, groups)) =>
      .ok (some (build_url entry.upstream (groups.filterMap id)))

/-- The spec's interleaving, stopping at the end of the shorter of the two
sequences (fragment then capture, alternating). -/
def interleave_trunc : List String → List String → List String
  | a :: as_, b :: bs => a :: b :: interleave_trunc as_ bs
  | _, _ => []

/-! ### Content negotiator (`get_target_mime`, src/http.rs lines 105-117) -/

/-- The output formats this pipeline negotiates or re-encodes to (the
constructors of the external `image::ImageFormat` that the source uses). -/
inductive ImageFormat where
  | Jpeg
  | Png
  | WebP
  | Avif
deriving DecidableEq, Repr

/-- The mime string of a format, `ImageFormat::to_mime_type` of the `image`
crate restricted to the constructors modelled here. -/
def to_mime_type : ImageFormat → String
  | .Jpeg => "image/jpeg"
  | .Png => "image/png"
  | .WebP => "image/webp"
  | .Avif => "image/avif"

/-- `get_target_mime` from src/http.rs: plain substring containment on the
Accept header text (already converted to a string; an unreadable header
value becomes `""` via `unwrap_or_default`), AVIF before WebP, otherwise
keep the upstream format. -/
def get_target_mime (accept : Option String) : Option ImageFormat :=
  match accept with
  | some accept_str =>
    if str_contains accept_str "image/avif" then some .Avif
    else if str_contains accept_str "image/webp" then some .WebP
    else none
  | none => none

/-! ### Header translator (`convert_headers`, src/http.rs lines 175-207) -/

/-- A header map, modelled as an ordered multimap.  `http::HeaderMap`
normalises header names to lowercase, so keys are compared literally. -/
abbrev HeaderList := List (String × String)

/-- `HeaderMap::insert`: every existing value of the name is removed and the
new value stored. -/
def hm_insert (hm : HeaderList) (k v : String) : HeaderList :=
  hm.filter (fun p => !(p.1 == k)) ++ [(k, v)]

/-- `HeaderMap::append`: the value is added, keeping existing ones. -/
def hm_append (hm : HeaderList) (k v : String) : HeaderList :=
  hm ++ [(k, v)]

/-- One iteration of the `convert_headers` loop: `insert` for Content-Type,
Last-Modified and ETag, `append` for Cache-Control, skip anything else.
Header values convert between the two `http` versions through
`to_str`/`from_str`; values are modelled as the strings that conversion
yields. -/
def convert_step (clean : HeaderList) (kv : String × String) : HeaderList :=
  if kv.1 = "content-type" then hm_insert clean "content-type" kv.2
  else if kv.1 = "last-modified" then hm_insert clean "last-modified" kv.2
  else if kv.1 = "etag" then hm_insert clean "etag" kv.2
  else if kv.1 = "cache-control" then hm_append clean "cache-control" kv.2
  else clean

/-- `convert_headers` from src/http.rs: fold the loop over the upstream
header map, starting from an empty map. -/
def convert_headers (headers : HeaderList) : HeaderList :=
  headers.foldl convert_step []

/-! ### Image engine (src/image.rs) -/

/-- Which backend decodes and encodes, fixed by configuration
(src/image.rs `EngineType`). -/
inductive EngineType where
  | ImageRs
  | Vips
deriving DecidableEq, Repr

/-- `DEFAULT_GEOMETRY` from src/image.rs line 12. -/
def DEFAULT_GEOMETRY : Nat × Nat := (800, 800)

/-- The capability surface of a decoded image (the `ImageProcessing` trait):
resize, encode and intrinsic geometry.  The pixel-level behaviour lives in
the external backends, so it stays abstract. -/
structure EngineOps (α : Type) where
  resize : α → Nat → Nat → Except Unit α
  encode : α → ImageFormat → Except Unit (List Nat)
  get_geometry : α → Nat × Nat

/-- The conditional-resize block of `Image::new` (src/image.rs lines
97-110): desired geometry defaults to `DEFAULT_GEOMETRY`; when the decoded
image is smaller than desired in either dimension the data is kept
unmodified, otherwise the backend resize runs with the desired width and
height. -/
def resize_step {α : Type} (eng : EngineOps α) (raw_data : α)
    (geometry : Option (Nat × Nat)) : Except Unit α :=
  let nwh := geometry.getD DEFAULT_GEOMETRY
  let wh := eng.get_geometry raw_data
  if wh.1 < nwh.1 ∨ wh.2 < nwh.2 then .ok raw_data
  else eng.resize raw_data nwh.1 nwh.2

/-- The state `Image::new` produces: decoded data, current target format and
the response header set. -/
structure ImageState (α : Type) where
  data : α
  mime : ImageFormat
  headers : HeaderList

/-- `Image::new` from src/image.rs: read the upstream Content-Type (first
value; missing or unparseable is an error), append the `Vary: Accept`
marker, decode through the selected backend (`import_image`), then apply
the conditional resize.  `from_mime_type` models
`ImageFormat::from_mime_type` of the `image` crate and `import_image` the
backend decoders, both external. -/
def image_new {α β : Type} (from_mime_type : String → Option ImageFormat)
    (import_image : β → EngineType → ImageFormat → Except Unit α)
    (eng : EngineOps α) (bytes : β) (upstream_headers : HeaderList)
    (geometry : Option (Nat × Nat)) (engine : EngineType) :
    Except Unit (ImageState α) :=
  match upstream_headers.find? (fun p => p.1 == "content-type") with
  | none => .error ()
  | some ct =>
    match from_mime_type ct.2 with
    | none => .error ()
    | some mime =>
      let headers := hm_append upstream_headers "vary" "Accept"
      match import_image bytes engine mime with
      | .error e => .error e
      | .ok raw_data =>
        match resize_step eng raw_data geometry with
        | .error e => .error e
        | .ok data => .ok ⟨data, mime, headers⟩

/-- `Image::set_mime`: change the target format and overwrite the
Content-Type response header with its mime string. -/
def set_mime {α : Type} (st : ImageState α) (m : ImageFormat) : ImageState α :=
  { st with mime := m, headers := hm_insert st.headers "content-type" (to_mime_type m) }

/-! ### Request pipeline (`process`, src/http.rs lines 53-92) -/

/-- The configured state (src/config.rs `Config`). -/
structure Config where
  port : Option Nat
  listen_address : Option String
  threads : Option Nat
  engine : EngineType
  upstreams : List Upstreams

/-- The parts of an inbound request the pipeline reads: the URI path, the
query string (`query().unwrap_or_default()`, so an absent query is `""`)
and the Accept header. -/
structure Req where
  path : String
  query : String
  accept : Option String

/-- What a transport-level successful upstream fetch yields. -/
structure UpstreamAnswer (β : Type) where
  status : Nat
  headers : HeaderList
  body : β

/-- A response body: `Body::empty()`, a literal text body, or encoded image
bytes. -/
inductive RespBody where
  | empty
  | text (s : String)
  | bin (b : List Nat)
deriving DecidableEq, Repr

/-- Whether a response body carries no bytes. -/
def RespBody.is_empty : RespBody → Bool
  | .empty => true
  | .text s => s = ""
  | .bin b => b.isEmpty

/-- An HTTP response as the pipeline builds it (headers the framework adds
on plain `(status, text)` responses are elided). -/
structure HttpResponse where
  status : Nat
  headers : HeaderList
  body : RespBody
deriving DecidableEq, Repr

/-- How `process` can fail to return a response: an `anyhow` error
propagated by `?` (mapped to 500 by `handle`), or a panic that unwinds past
it. -/
inductive Fail where
  | err
  | panic
deriving DecidableEq, Repr

/-- `reqwest::StatusCode::is_success`: 2xx. -/
def is_success (s : Nat) : Bool :=
  decide (200 ≤ s ∧ s < 300)

/-- `process` from src/http.rs, parameterised over the external
collaborators (capture oracle `rx`, HTTP client `fetch` — which also covers
`create_http_client`'s fallibility — and the imaging externals).  Mirrors
the source order: resolve the upstream URL (`if let Ok(Some(url))`, so both
a resolution error and no match fall to the 404 branch), extract the
desired geometry from the query (a panic there unwinds), fetch, reject a
non-2xx upstream answer with 502 and an empty body, translate headers,
decode/resize, negotiate the target format, encode, respond 200. -/
def process {α β : Type}
    (rx : String → String → Except Unit (Option (String × List (Option String))))
    (fetch : String → Except Unit (UpstreamAnswer β))
    (from_mime_type : String → Option ImageFormat)
    (import_image : β → EngineType → ImageFormat → Except Unit α)
    (eng : EngineOps α) (config : Config) (req : Req) : Except Fail HttpResponse :=
  match get_upstream rx req.path config.upstreams with
  | .ok (some upstream_url) =>
    match extract_geometry req.query with
    | .error _ => .error .panic
    | .ok desired_geometry =>
      match fetch upstream_url with
      | .error _ => .error .err
      | .ok upstream_answer =>
        if !is_success upstream_answer.status then
          .ok ⟨502, [], .empty⟩
        else
          let upstream_headers := convert_headers upstream_answer.headers
          match image_new from_mime_type import_image eng upstream_answer.body
              upstream_headers desired_geometry config.engine with
          | .error _ => .error .err
          | .ok image0 =>
            let image1 := match get_target_mime req.accept with
              | some target_mime => set_mime image0 target_mime
              | none => image0
            match eng.encode image1.data image1.mime with
            | .error _ => .error .err
            | .ok body => .ok ⟨200, image1.headers, .bin body⟩
  | _ => .ok ⟨404, [], .text "Not found\n"⟩

/-- `handle` from src/http.rs: an `anyhow` error from `process` becomes a
500 with a generic body; a panic is not caught there. -/
def handle {α β : Type}
    (rx : String → String → Except Unit (Option (String × List (Option String))))
    (fetch : String → Except Unit (UpstreamAnswer β))
    (from_mime_type : String → Option ImageFormat)
    (import_image : β → EngineType → ImageFormat → Except Unit α)
    (eng : EngineOps α) (config : Config) (req : Req) : Option HttpResponse :=
  match process rx fetch from_mime_type import_image eng config req with
  | .ok r => some r
  | .error .err => some ⟨500, [], .text "Error processing image\n"⟩
  | .error .panic => none

/-! ### Spec-side predicates used to state the claims -/

/-- Substring containment as the spec words it: `sub` occurs contiguously
inside `s`. -/
def HasSub (s sub : String) : Prop :=
  ∃ a b : List Char, s.data = a ++ sub.data ++ b

/-- All values of header name `k` in a header list, in order. -/
def kfilter (k : String) (l : HeaderList) : HeaderList :=
  l.filter (fun p => p.1 == k)

/-! ### Concrete instantiations of the external collaborators

Used to evaluate the theorems below at concrete inputs. -/

/-- A toy backend whose decoded images are just their geometry: `resize`
returns the requested box, `encode` a fixed byte. -/
def toy_engine : EngineOps (Nat × Nat) :=
  { resize := fun _ w h => .ok (w, h)
    encode := fun _ _ => .ok [1]
    get_geometry := id }

/-- The `image` crate's mime table restricted to JPEG. -/
def toy_mime : String → Option ImageFormat :=
  fun s => if s = "image/jpeg" then some .Jpeg else none

/-- A decoder producing a fixed 1000×900 image. -/
def toy_import : Unit → EngineType → ImageFormat → Except Unit (Nat × Nat) :=
  fun _ _ _ => .ok (1000, 900)

/-- An upstream that answers 503 to everything. -/
def fetch_503 : String → Except Unit (UpstreamAnswer Unit) :=
  fun _ => .ok ⟨503, [], ()⟩

/-- A configuration whose first rule has the malformed pattern `(` and whose
second rule would match `/x`. -/
def cfg_malformed : Config :=
  ⟨none, none, none, .ImageRs, [⟨"(", "u"⟩, ⟨"^/x$", "ok"⟩]⟩

/-- A configuration with one well-formed rule matching `/x` (one capture
group and one placeholder, so the capture fills the template). -/
def cfg_single : Config :=
  ⟨none, none, none, .ImageRs, [⟨"^/(x)$", "http://o/{}"⟩]⟩

/-- A request for `/x` with no query and no Accept header. -/
def req_x : Req := ⟨"/x", "", none⟩

/-! ### Helper lemmas -/

theorem zip_flatten_interleave (as_ bs : List String) :
    ((as_.zip bs).map (fun p => [p.1, p.2])).flatten = interleave_trunc as_ bs := by
  induction as_ generalizing bs with
  | nil => cases bs <;> simp [interleave_trunc]
  | cons a t ih =>
    cases bs with
    | nil => simp [interleave_trunc]
    | cons b bt => simp [interleave_trunc, ih]

/-! ### Claim C1 -/

/-- Claim C1 (amended): for the rule with pattern `^/img/(\d+)$` and
template `http://origin/{}/full`, resolving `/img/42` substitutes the
single capture for the placeholder but drops the trailing literal fragment
`/full` (the zip truncates at the single capture), yielding
`http://origin/42`.  Stated for every capture oracle that reports the
standard match of that pattern on that path. -/
theorem c1_resolve_example
    (rx : String → String → Except Unit (Option (String × List (Option String))))
    (h : rx "^/img/(\\d+)$" "/img/42" = .ok (some ("/img/42", [some "42"]))) :
    get_upstream rx "/img/42" [⟨"^/img/(\\d+)$", "http://origin/{}/full"⟩] =
      .ok (some "http://origin/42") := by
  simp only [get_upstream, h]
  rfl

/-- Claim C1, counterexample to the claim as stated: the resolved URL is
`http://origin/42`, which does not keep the trailing literal `/full`. -/
theorem c1_counterexample :
    get_upstream mini_regex "/img/42" [⟨"^/img/(\\d+)$", "http://origin/{}/full"⟩] =
      .ok (some "http://origin/42") ∧
    ("http://origin/42" : String) ≠ "http://origin/42/full" :=
  ⟨rfl, by decide⟩

/-- Claim C1, witness: the amended theorem at the concrete oracle. -/
theorem c1_witness :
    get_upstream mini_regex "/img/42" [⟨"^/img/(\\d+)$", "http://origin/{}/full"⟩] =
      .ok (some "http://origin/42") :=
  c1_resolve_example mini_regex rfl

/-! ### Claim C5 -/

/-- Claim C5: the resolved URL interleaves template fragments and captures
positionally and stops at the end of the shorter sequence, dropping the
trailing elements of the longer one: the result is the flattening of the
zip, whose length is twice the minimum of the two lengths. -/
theorem c5_truncation :
    (∀ (as_ bs : List String),
      (interleave_trunc as_ bs).length = 2 * min as_.length bs.length) ∧
    ∀ (rx : String → String → Except Unit (Option (String × List (Option String))))
      (uri p t full : String) (groups : List (Option String)),
      rx p uri = .ok (some (full, groups)) →
      get_upstream rx uri [⟨p, t⟩] =
        .ok (some (String.join (interleave_trunc (rsplit "{}" t) (groups.filterMap id)))) := by
  constructor
  · intro as_ bs
    induction as_ generalizing bs with
    | nil => cases bs <;> simp [interleave_trunc]
    | cons a t ih =>
      cases bs with
      | nil => simp [interleave_trunc]
      | cons b bt =>
        simp [interleave_trunc, ih, Nat.succ_min_succ]
        omega
  · intro rx uri p t full groups h
    simp only [get_upstream, build_url, h]
    rw [zip_flatten_interleave]

/-- Claim C5, witness: a 2-placeholder template with 3 captures — three
fragments zip with three captures, so the result ends with the third
capture appended after the final fragment. -/
theorem c5_witness :
    get_upstream mini_regex "/abc" [⟨"^/(a)(b)(c)$", "u/{}/{}"⟩] =
      .ok (some (String.join (interleave_trunc (rsplit "{}" "u/{}/{}")
        ([some "a", some "b", some "c"].filterMap id)))) :=
  c5_truncation.2 mini_regex "/abc" "^/(a)(b)(c)$" "u/{}/{}" "/abc"
    [some "a", some "b", some "c"] rfl

/-! ### Claim C10 -/

/-- Claim C10: a capture group that did not participate in the match is
omitted entirely before interleaving (not replaced by an empty string), so
every later participating capture shifts into its position: resolution with
groups `pre ++ [none] ++ post` equals resolution with the non-participating
group deleted. -/
theorem c10_group_shift
    (rx : String → String → Except Unit (Option (String × List (Option String))))
    (uri p t full : String) (pre post : List (Option String))
    (h : rx p uri = .ok (some (full, pre ++ none :: post))) :
    get_upstream rx uri [⟨p, t⟩] =
      .ok (some (build_url t ((pre ++ post).filterMap id))) := by
  simp only [get_upstream, h]
  have hfm : (pre ++ none :: post).filterMap id = (pre ++ post).filterMap id := by
    simp [List.filterMap_append]
  rw [hfm]

/-- Claim C10, witness: `^/(a)?(b)$` against `/b` leaves group 1
non-participating; the template `X{}Y{}Z` receives only the shifted capture
`b`, yielding `Xb` (not `XYb` as empty-string substitution would). -/
theorem c10_witness :
    get_upstream mini_regex "/b" [⟨"^/(a)?(b)$", "X{}Y{}Z"⟩] =
      .ok (some (build_url "X{}Y{}Z" (([] ++ [some "b"]).filterMap id))) :=
  c10_group_shift mini_regex "/b" "^/(a)?(b)$" "X{}Y{}Z" "/b" [] [some "b"] rfl

/-! ### Claim C2 -/

/-- Claim C2 (amended): a rule whose pattern fails to compile aborts the
whole resolution with an error — it is not skipped, even when a later rule
would match — but the pipeline's `if let Ok(Some(url))` treats that error
like "no match" and responds HTTP 404, not 500. -/
theorem c2_malformed_pattern :
    (∀ (rx : String → String → Except Unit (Option (String × List (Option String))))
      (uri p t : String) (rest : List Upstreams),
      rx p uri = .error () →
      get_upstream rx uri (⟨p, t⟩ :: rest) = .error ()) ∧
    (∀ {α β : Type}
      (rx : String → String → Except Unit (Option (String × List (Option String))))
      (fetch : String → Except Unit (UpstreamAnswer β))
      (fm : String → Option ImageFormat)
      (imp : β → EngineType → ImageFormat → Except Unit α)
      (eng : EngineOps α) (cfg : Config) (req : Req),
      get_upstream rx req.path cfg.upstreams = .error () →
      process rx fetch fm imp eng cfg req = .ok ⟨404, [], .text "Not found\n"⟩) := by
  constructor
  · intro rx uri p t rest h
    simp only [get_upstream, h]
  · intro α β rx fetch fm imp eng cfg req h
    simp only [process, h]

/-- Claim C2, counterexample to the claim as stated: with a first rule whose
pattern `(` is malformed, the pipeline answers 404 (the claim says the
error surfaces as HTTP 500). -/
theorem c2_counterexample :
    mini_regex "(" "/x" = .error () ∧
    process mini_regex fetch_503 toy_mime toy_import toy_engine cfg_malformed req_x =
      .ok ⟨404, [], .text "Not found\n"⟩ ∧
    (404 : Nat) ≠ 500 :=
  ⟨rfl, rfl, by decide⟩

/-- Claim C2, witness: the amended theorem at the malformed configuration. -/
theorem c2_witness :
    process mini_regex fetch_503 toy_mime toy_import toy_engine cfg_malformed req_x =
      .ok ⟨404, [], .text "Not found\n"⟩ :=
  c2_malformed_pattern.2 mini_regex fetch_503 toy_mime toy_import toy_engine
    cfg_malformed req_x rfl

/-! ### Claim C9 -/

/-- Claim C9 (amended): an upstream fetch that succeeds at the transport
level but returns a non-2xx status stops the pipeline with HTTP 502 Bad
Gateway and an empty body (`Body::empty()`), leaking no internal detail. -/
theorem c9_bad_gateway
    {α β : Type}
    (rx : String → String → Except Unit (Option (String × List (Option String))))
    (fetch : String → Except Unit (UpstreamAnswer β))
    (fm : String → Option ImageFormat)
    (imp : β → EngineType → ImageFormat → Except Unit α)
    (eng : EngineOps α) (cfg : Config) (req : Req) (url : String)
    (ans : UpstreamAnswer β) (g : Option (Nat × Nat))
    (hget : get_upstream rx req.path cfg.upstreams = .ok (some url))
    (hx : extract_geometry req.query = .ok g)
    (hf : fetch url = .ok ans)
    (hs : is_success ans.status = false) :
    process rx fetch fm imp eng cfg req = .ok ⟨502, [], .empty⟩ := by
  simp only [process, hget, hx, hf, hs]
  rfl

/-- Claim C9, counterexample to the claim as stated: on an upstream 503 the
pipeline answers 502 with `Body::empty()` — the body is empty, not a
non-empty generic error text. -/
theorem c9_counterexample :
    process mini_regex fetch_503 toy_mime toy_import toy_engine cfg_single req_x =
      .ok ⟨502, [], .empty⟩ ∧
    RespBody.is_empty .empty = true :=
  ⟨rfl, rfl⟩

/-- Claim C9, witness: the amended theorem at the 503 upstream. -/
theorem c9_witness :
    process mini_regex fetch_503 toy_mime toy_import toy_engine cfg_single req_x =
      .ok ⟨502, [], .empty⟩ :=
  c9_bad_gateway mini_regex fetch_503 toy_mime toy_import toy_engine cfg_single
    req_x "http://o/x" ⟨503, [], ()⟩ none (by decide) rfl rfl rfl

/-! ### Extractor lemmas and claims C3, C4 -/

theorem find_size_eq (l : List String) :
    find_size l = ((l.findSome? qualifies).getD "") := by
  induction l with
  | nil => rfl
  | cons p rest ih =>
    cases h : qualifies p <;> simp [find_size, List.findSome?, h, ih]

/-- On every input where the byte slice does not panic, `extract_geometry`
computes exactly the spec-side condition `geometry_spec`. -/
theorem extract_eq (q : String) :
    extract_geometry q = .error () ∨ extract_geometry q = .ok (geometry_spec q) := by
  unfold extract_geometry geometry_spec
  rw [find_size_eq]
  cases hf : (rsplit "&" q).findSome? qualifies with
  | none =>
    right
    simp
  | some v =>
    by_cases hv : v = ""
    · right
      subst hv
      rfl
    · by_cases hso : slice_ok v.data
      · right
        simp only [Option.getD, if_neg hv, if_pos hso]
        cases hsp : rsplit "," (String.mk ((v.data.drop 1).dropLast)) with
        | nil => rfl
        | cons a tl =>
          cases tl with
          | nil => rfl
          | cons b tl2 =>
            cases tl2 with
            | cons c tl3 => rfl
            | nil =>
              by_cases ha : parse_u32 a.data = 0
              · simp [ha]
              · by_cases hb : parse_u32 b.data = 0
                · simp [ha, hb]
                · simp [ha, hb, Nat.pos_of_ne_zero ha, Nat.pos_of_ne_zero hb]
      · left
        simp [hv, hso]

/-- Claim C3: the geometry extractor is claimed total, returning `None` on
any malformed input; but on the query `im=Resize=x` the Rust byte slice
`size[1..size.len() - 1]` is `"x"[1..0]`, which panics — modelled here as
the `.error ()` result. -/
theorem c3_panic_single_char :
    extract_geometry "im=Resize=x" = .error () := rfl

/-- Claim C4 (amended): whenever the extractor returns (it panics on a
first qualifying value whose first or last character is not a single byte
or which is a single character, see C3), it returns `Some (W, H)` exactly
when the first pair of the `&`-split whose `Resize=`-split starts with
exactly `im=` and has a second piece yields, after stripping that piece's
first and last characters (the parenthesis delimiters are not verified), a
string splitting on `,` into exactly two fields whose trimmed parses are
strictly positive `u32`s (unparseable fields count as 0 and are rejected);
in particular the three concrete examples of the spec hold. -/
theorem c4_geometry_condition :
    (∀ (q : String) (w h : Nat), extract_geometry q ≠ .error () →
      (extract_geometry q = .ok (some (w, h)) ↔ geometry_spec q = some (w, h))) ∧
    extract_geometry "a=1&im=Resize=(800,600)&b=2" = .ok (some (800, 600)) ∧
    extract_geometry "im=Resize=(0,600)" = .ok none ∧
    extract_geometry "im=Resize=(800)" = .ok none := by
  refine ⟨?_, rfl, rfl, rfl⟩
  intro q w h hq
  rcases extract_eq q with he | he
  · exact absurd he hq
  · rw [he]
    constructor
    · intro h1
      exact Except.ok.inj h1
    · intro h1
      rw [h1]

/-- Claim C4, counterexample to the claim as stated: the value
`[800,600]` is not of the form `(W,H)` (the claim-literal condition
`geometry_claimed` rejects it), yet the extractor accepts it — the
delimiters are stripped blindly, never verified. -/
theorem c4_counterexample :
    extract_geometry "im=Resize=[800,600]" = .ok (some (800, 600)) ∧
    geometry_claimed "im=Resize=[800,600]" = none :=
  ⟨rfl, rfl⟩

/-- Claim C4, witness: the amended equivalence evaluated on the spec's
positive example. -/
theorem c4_witness :
    extract_geometry "a=1&im=Resize=(800,600)&b=2" = .ok (some (800, 600)) ↔
      geometry_spec "a=1&im=Resize=(800,600)&b=2" = some (800, 600) :=
  c4_geometry_condition.1 "a=1&im=Resize=(800,600)&b=2" 800 600 (by decide)

/-! ### Claim C6 -/

/-- Claim C6: with the desired geometry defaulting to 800×800 when
extraction returned none, the conditional-resize step returns the image
unmodified exactly when the intrinsic width or height is below the desired
one, and otherwise invokes the backend resize with the desired width and
height. -/
theorem c6_resize_policy {α : Type} (eng : EngineOps α) (raw : α)
    (geometry : Option (Nat × Nat)) (dw dh w h : Nat)
    (hg : geometry.getD DEFAULT_GEOMETRY = (dw, dh))
    (hwh : eng.get_geometry raw = (w, h)) :
    (w < dw ∨ h < dh → resize_step eng raw geometry = .ok raw) ∧
    (dw ≤ w ∧ dh ≤ h → resize_step eng raw geometry = eng.resize raw dw dh) := by
  simp only [resize_step, hg, hwh]
  constructor
  · intro hc
    rw [if_pos hc]
  · intro hc
    rw [if_neg (by omega)]

/-- Claim C6, witness: a 500×900 image is below the 800×800 default in
width, so it is kept unmodified; a 1000×900 image is at least 600×700, so
the backend resize runs with 600 and 700. -/
theorem c6_witness :
    resize_step toy_engine (500, 900) none = .ok (500, 900) ∧
    resize_step toy_engine (1000, 900) (some (600, 700)) =
      toy_engine.resize (1000, 900) 600 700 :=
  ⟨(c6_resize_policy toy_engine (500, 900) none 800 800 500 900 rfl rfl).1 (by omega),
   (c6_resize_policy toy_engine (1000, 900) (some (600, 700)) 600 700 1000 900 rfl rfl).2
     (by omega)⟩

/-! ### Claim C7 -/

theorem pre_chk_iff (n h : List Char) : pre_chk n h = true ↔ ∃ t, h = n ++ t := by
  induction n generalizing h with
  | nil => simp [pre_chk]
  | cons a as_ ih =>
    cases h with
    | nil => simp [pre_chk]
    | cons b bs =>
      simp only [pre_chk, Bool.and_eq_true, beq_iff_eq, ih, List.cons_append,
        List.cons.injEq]
      constructor
      · rintro ⟨h1, t2, h2⟩
        exact ⟨t2, h1.symm, h2⟩
      · rintro ⟨t2, h1, h2⟩
        exact ⟨h1.symm, t2, h2⟩

theorem contains_sub_iff (hay needle : List Char) :
    contains_sub hay needle = true ↔ ∃ a b, hay = a ++ needle ++ b := by
  induction hay with
  | nil =>
    rw [contains_sub, pre_chk_iff]
    constructor
    · rintro ⟨t2, ht⟩
      rcases List.append_eq_nil.mp ht.symm with ⟨h1, h2⟩
      exact ⟨[], [], by simp [h1]⟩
    · rintro ⟨a, b, hab⟩
      rcases List.append_eq_nil.mp hab.symm with ⟨h1, h2⟩
      rcases List.append_eq_nil.mp h1 with ⟨h3, h4⟩
      exact ⟨[], by simp [h4]⟩
  | cons c t ih =>
    rw [contains_sub]
    simp only [Bool.or_eq_true, pre_chk_iff, ih]
    constructor
    · rintro (⟨t2, ht⟩ | ⟨a, b, hab⟩)
      · exact ⟨[], t2, by simp [ht]⟩
      · exact ⟨c :: a, b, by simp [hab]⟩
    · rintro ⟨a, b, hab⟩
      cases a with
      | nil => exact Or.inl ⟨b, by simpa using hab⟩
      | cons a0 a1 =>
        simp only [List.cons_append, List.cons.injEq] at hab
        exact Or.inr ⟨a1, b, hab.2⟩

theorem str_contains_iff (s sub : String) : str_contains s sub = true ↔ HasSub s sub :=
  contains_sub_iff s.data sub.data

/-- Claim C7: content negotiation is plain substring containment on the
Accept header text: AVIF when it contains `image/avif`, else WebP when it
contains `image/webp`, else none (keep the upstream format), with AVIF
taking precedence and q-weights ignored; an absent header negotiates
nothing. -/
theorem c7_negotiation :
    (∀ s : String,
      (HasSub s "image/avif" → get_target_mime (some s) = some .Avif) ∧
      (¬ HasSub s "image/avif" ∧ HasSub s "image/webp" →
        get_target_mime (some s) = some .WebP) ∧
      (¬ HasSub s "image/avif" ∧ ¬ HasSub s "image/webp" →
        get_target_mime (some s) = none)) ∧
    get_target_mime none = none := by
  refine ⟨fun s => ⟨?_, ?_, ?_⟩, rfl⟩
  · intro hs
    have h1 : str_contains s "image/avif" = true := (str_contains_iff _ _).mpr hs
    simp [get_target_mime, h1]
  · rintro ⟨hna, hw⟩
    have h1 : str_contains s "image/avif" = false := by
      rw [← str_contains_iff] at hna
      simpa using hna
    have h2 : str_contains s "image/webp" = true := (str_contains_iff _ _).mpr hw
    simp [get_target_mime, h1, h2]
  · rintro ⟨hna, hnw⟩
    have h1 : str_contains s "image/avif" = false := by
      rw [← str_contains_iff] at hna
      simpa using hna
    have h2 : str_contains s "image/webp" = false := by
      rw [← str_contains_iff] at hnw
      simpa using hnw
    simp [get_target_mime, h1, h2]

/-- Claim C7, witness: `image/avif, image/webp` negotiates AVIF (precedence)
and `text/html, image/webp;q=0.9` negotiates WebP (weights ignored). -/
theorem c7_witness :
    get_target_mime (some "image/avif, image/webp") = some ImageFormat.Avif ∧
    get_target_mime (some "text/html, image/webp;q=0.9") = some ImageFormat.WebP :=
  ⟨(c7_negotiation.1 "image/avif, image/webp").1 ⟨[], (", image/webp").data, rfl⟩,
   (c7_negotiation.1 "text/html, image/webp;q=0.9").2.1
     ⟨fun hs => absurd ((str_contains_iff _ _).mpr hs) (by decide),
      ⟨"text/html, ".data, ";q=0.9".data, rfl⟩⟩⟩

/-! ### Claim C8 -/

theorem filter_filter_ne (k k' : String) (h : k' ≠ k) (m : HeaderList) :
    (m.filter (fun p => !(p.1 == k'))).filter (fun p => p.1 == k) =
      m.filter (fun p => p.1 == k) := by
  rw [List.filter_filter]
  apply List.filter_congr
  intro a _
  by_cases hk : a.1 = k
  · simp [hk, Ne.symm h]
  · simp [hk]

theorem kfilter_insert_self (m : HeaderList) (k v : String) :
    kfilter k (hm_insert m k v) = [(k, v)] := by
  unfold kfilter hm_insert
  rw [List.filter_append]
  have h0 : (m.filter (fun p => !(p.1 == k))).filter (fun p => p.1 == k) = [] := by
    induction m with
    | nil => rfl
    | cons p t ih =>
      by_cases hp : p.1 = k
      · simp [hp, ih]
      · simp [hp, ih]
  rw [h0]
  simp

theorem kfilter_insert_ne (m : HeaderList) (k k' v : String) (h : k' ≠ k) :
    kfilter k (hm_insert m k' v) = kfilter k m := by
  unfold kfilter hm_insert
  rw [List.filter_append, filter_filter_ne k k' h]
  simp [h]

theorem kfilter_append_self (m : HeaderList) (k v : String) :
    kfilter k (hm_append m k v) = kfilter k m ++ [(k, v)] := by
  unfold kfilter hm_append
  rw [List.filter_append]
  simp

theorem kfilter_append_ne (m : HeaderList) (k k' v : String) (h : k' ≠ k) :
    kfilter k (hm_append m k' v) = kfilter k m := by
  unfold kfilter hm_append
  rw [List.filter_append]
  simp [h]

theorem convert_step_key (acc : HeaderList) (q : String × String) :
    (q.1 = "content-type" → convert_step acc q = hm_insert acc "content-type" q.2) ∧
    (q.1 = "last-modified" → convert_step acc q = hm_insert acc "last-modified" q.2) ∧
    (q.1 = "etag" → convert_step acc q = hm_insert acc "etag" q.2) ∧
    (q.1 = "cache-control" → convert_step acc q = hm_append acc "cache-control" q.2) := by
  refine ⟨fun h => ?_, fun h => ?_, fun h => ?_, fun h => ?_⟩ <;>
    simp [convert_step, h]

theorem kfilter_convert_step_ne (M : HeaderList) (q : String × String) (k : String)
    (hq : q.1 ≠ k) : kfilter k (convert_step M q) = kfilter k M := by
  unfold convert_step
  split_ifs with h1 h2 h3 h4
  · exact kfilter_insert_ne M k "content-type" q.2 (h1 ▸ hq)
  · exact kfilter_insert_ne M k "last-modified" q.2 (h2 ▸ hq)
  · exact kfilter_insert_ne M k "etag" q.2 (h3 ▸ hq)
  · exact kfilter_append_ne M k "cache-control" q.2 (h4 ▸ hq)
  · rfl

theorem fold_kfilter_insert (k : String)
    (hk : k = "content-type" ∨ k = "last-modified" ∨ k = "etag") (l : HeaderList) :
    ∀ acc : HeaderList,
      kfilter k (l.foldl convert_step acc) =
        match (kfilter k l).getLast? with
        | some kv => [kv]
        | none => kfilter k acc := by
  induction l using List.reverseRecOn with
  | nil => intro acc; simp [kfilter]
  | append_singleton l q ih =>
    intro acc
    rw [List.foldl_append]
    by_cases hq : q.1 = k
    · have hstep : convert_step (l.foldl convert_step acc) q = hm_insert (l.foldl convert_step acc) k q.2 := by
        rcases hk with h | h | h <;> subst h
        · exact (convert_step_key _ q).1 hq
        · exact (convert_step_key _ q).2.1 hq
        · exact (convert_step_key _ q).2.2.1 hq
      have hqk : kfilter k (l ++ [q]) = kfilter k l ++ [q] := by
        simp [kfilter, List.filter_append, hq]
      simp only [List.foldl_cons, List.foldl_nil, hstep, kfilter_insert_self, hqk,
        List.getLast?_concat]
      have : (k, q.2) = q := by
        rw [← hq]
      rw [this]
    · have hqk : kfilter k (l ++ [q]) = kfilter k l := by
        simp [kfilter, List.filter_append, hq]
      simp only [List.foldl_cons, List.foldl_nil,
        kfilter_convert_step_ne _ q k hq, hqk, ih]

theorem fold_kfilter_cc (l : HeaderList) :
    ∀ acc : HeaderList,
      kfilter "cache-control" (l.foldl convert_step acc) =
        kfilter "cache-control" acc ++ kfilter "cache-control" l := by
  induction l using List.reverseRecOn with
  | nil => intro acc; simp [kfilter]
  | append_singleton l q ih =>
    intro acc
    rw [List.foldl_append]
    by_cases hq : q.1 = "cache-control"
    · have hstep := (convert_step_key (l.foldl convert_step acc) q).2.2.2 hq
      have hqk : kfilter "cache-control" (l ++ [q]) =
          kfilter "cache-control" l ++ [q] := by
        simp [kfilter, List.filter_append, hq]
      simp only [List.foldl_cons, List.foldl_nil, hstep, kfilter_append_self, hqk, ih]
      have : ("cache-control", q.2) = q := by
        rw [← hq]
      rw [this, List.append_assoc]
    · have hqk : kfilter "cache-control" (l ++ [q]) = kfilter "cache-control" l := by
        simp [kfilter, List.filter_append, hq]
      simp only [List.foldl_cons, List.foldl_nil,
        kfilter_convert_step_ne _ q "cache-control" hq, hqk, ih]

theorem mem_convert_step (acc : HeaderList) (q p : String × String)
    (hp : p ∈ convert_step acc q) :
    p ∈ acc ∨ p.1 = "content-type" ∨ p.1 = "last-modified" ∨ p.1 = "etag" ∨
      p.1 = "cache-control" := by
  unfold convert_step at hp
  split_ifs at hp
  · rcases List.mem_append.mp hp with h | h
    · exact Or.inl (List.mem_of_mem_filter h)
    · simp only [List.mem_singleton] at h
      exact Or.inr (Or.inl (by rw [h]))
  · rcases List.mem_append.mp hp with h | h
    · exact Or.inl (List.mem_of_mem_filter h)
    · simp only [List.mem_singleton] at h
      exact Or.inr (Or.inr (Or.inl (by rw [h])))
  · rcases List.mem_append.mp hp with h | h
    · exact Or.inl (List.mem_of_mem_filter h)
    · simp only [List.mem_singleton] at h
      exact Or.inr (Or.inr (Or.inr (Or.inl (by rw [h]))))
  · rcases List.mem_append.mp hp with h | h
    · exact Or.inl h
    · simp only [List.mem_singleton] at h
      exact Or.inr (Or.inr (Or.inr (Or.inr (by rw [h]))))
  · exact Or.inl hp

theorem fold_keys (l : HeaderList) :
    ∀ acc : HeaderList,
      (∀ p ∈ acc, p.1 = "content-type" ∨ p.1 = "last-modified" ∨ p.1 = "etag" ∨
        p.1 = "cache-control") →
      ∀ p ∈ l.foldl convert_step acc,
        p.1 = "content-type" ∨ p.1 = "last-modified" ∨ p.1 = "etag" ∨
          p.1 = "cache-control" := by
  induction l with
  | nil => exact fun acc h => h
  | cons q t ih =>
    intro acc hacc
    refine ih _ (fun p hp => ?_)
    rcases mem_convert_step acc q p hp with h | h
    · exact hacc p h
    · exact h

/-- Claim C8: the translated response header set carries only the four
allowlisted names (everything else, e.g. `x-custom`, is dropped);
Content-Type, Last-Modified and ETag each keep exactly the last upstream
value (overwrite), Cache-Control keeps all upstream values in order
(append); and `Image::new` always appends the `Vary: Accept` marker to the
set it is given. -/
theorem c8_header_translation :
    (∀ hs : HeaderList,
      (∀ p ∈ convert_headers hs,
        p.1 = "content-type" ∨ p.1 = "last-modified" ∨ p.1 = "etag" ∨
          p.1 = "cache-control") ∧
      kfilter "content-type" (convert_headers hs) =
        ((kfilter "content-type" hs).getLast?).toList ∧
      kfilter "last-modified" (convert_headers hs) =
        ((kfilter "last-modified" hs).getLast?).toList ∧
      kfilter "etag" (convert_headers hs) =
        ((kfilter "etag" hs).getLast?).toList ∧
      kfilter "cache-control" (convert_headers hs) = kfilter "cache-control" hs) ∧
    convert_headers
        [("cache-control", "public"), ("x-custom", "foo"),
          ("cache-control", "max-age=10")] =
      [("cache-control", "public"), ("cache-control", "max-age=10")] ∧
    (∀ {α β : Type} (fm : String → Option ImageFormat)
      (imp : β → EngineType → ImageFormat → Except Unit α) (eng : EngineOps α)
      (bytes : β) (hs : HeaderList) (geom : Option (Nat × Nat)) (et : EngineType)
      (st : ImageState α),
      image_new fm imp eng bytes hs geom et = .ok st →
      st.headers = hm_append hs "vary" "Accept" ∧ ("vary", "Accept") ∈ st.headers) := by
  refine ⟨fun hs => ⟨?_, ?_, ?_, ?_, ?_⟩, rfl, ?_⟩
  · intro p hp
    exact fold_keys hs [] (by simp) p hp
  · unfold convert_headers
    rw [fold_kfilter_insert "content-type" (Or.inl rfl) hs []]
    cases hgl : (kfilter "content-type" hs).getLast? <;> simp [kfilter]
  · unfold convert_headers
    rw [fold_kfilter_insert "last-modified" (Or.inr (Or.inl rfl)) hs []]
    cases hgl : (kfilter "last-modified" hs).getLast? <;> simp [kfilter]
  · unfold convert_headers
    rw [fold_kfilter_insert "etag" (Or.inr (Or.inr rfl)) hs []]
    cases hgl : (kfilter "etag" hs).getLast? <;> simp [kfilter]
  · unfold convert_headers
    rw [fold_kfilter_cc hs []]
    simp [kfilter]
  · intro α β fm imp eng bytes hs0 geom et st h
    simp only [image_new] at h
    split at h
    · exact Except.noConfusion h
    · split at h
      · exact Except.noConfusion h
      · split at h
        · exact Except.noConfusion h
        · split at h
          · exact Except.noConfusion h
          · cases Except.ok.inj h
            exact ⟨rfl, by simp [hm_append]⟩

/-- Claim C8, witness: the vary-marker conjunct evaluated at a concrete
upstream header set with one Content-Type header. -/
theorem c8_witness :
    (ImageState.mk (800, 800) ImageFormat.Jpeg
        [("content-type", "image/jpeg"), ("vary", "Accept")]).headers =
      hm_append [("content-type", "image/jpeg")] "vary" "Accept" ∧
    ("vary", "Accept") ∈ (ImageState.mk (800, 800) ImageFormat.Jpeg
        [("content-type", "image/jpeg"), ("vary", "Accept")]).headers :=
  c8_header_translation.2.2 toy_mime toy_import toy_engine ()
    [("content-type", "image/jpeg")] none .ImageRs _ rfl
